import Mathlib

/-!
Shallow embedding of the `terraform-provider-pihole` DNS-record client
(`internal/pihole/dns.go`) and the Terraform resource glue
(`resource_dns_record.go`).

Modelling conventions:
* Machine effects (the session HTTP layer) are modelled by oracle functions
  stored on the `Client`: `buildReq` models `RequestWithSession` (which can
  fail before any request is sent), and `listDo` / `createDo` / `deleteDo`
  model `c.client.Do` followed by the JSON decode of the response body for
  the respective operation.  Each operation additionally returns the list of
  form requests actually handed to `c.client.Do`, in order.
* The token-authenticated path delegates to the external `go-pihole`
  library; that library is out of scope, so a `TokenClient` is an abstract
  oracle of its five `LocalDNS` calls.
* Go `*DNSRecord` pointers are modelled by values; range-loop variables are
  per-iteration (Go >= 1.22 semantics).
* A Go runtime panic (out-of-range index) is modelled by an explicit
  `panicked` outcome, distinct from a returned error.
* `fmt.Errorf(created.Message)` is modelled as an error carrying
  `created.Message` verbatim (printf-verb expansion is not modelled).
-/

namespace PiholeProvider

/-- Model of `pihole.DNSRecord` from the wrapped library: a (domain, IP) pair. -/
structure DNSRecord where
  Domain : String
  IP : String
deriving DecidableEq, Repr, Inhabited

/-- Model of `pihole.DNSRecordList`. -/
abbrev DNSRecordList := List DNSRecord

/-- Decoded body of the `action=get` response (`dns.go`). -/
structure DNSRecordsListResponse where
  Data : List (List String)
deriving DecidableEq, Repr

/-- Model of `ToDNSRecordList` from `dns.go`: row `i` becomes the record
`(Data[i][0], Data[i][1])`.  Go indexes the row unconditionally and would
panic on a short row; the model returns `""` there (claims about this
function carry the precondition that every row has length at least 2). -/
def DNSRecordsListResponse.ToDNSRecordList (rr : DNSRecordsListResponse) : DNSRecordList :=
  rr.Data.map (fun record => { Domain := record[0]?.getD "", IP := record[1]?.getD "" })

/-- Decoded body of the `action=add` response (`dns.go`). -/
structure CreateDNSRecordResponse where
  Success : Bool
  Message : String
deriving DecidableEq, Repr

/-- Errors returned by the client: `NotFoundError` (from `NewNotFoundError`)
versus any other Go error, identified by its message. -/
inductive PiError where
  | notFound (message : String)
  | goError (message : String)
deriving DecidableEq, Repr

/-- Errors of the external token-client library; `localDNSNotFound` models
`pihole.ErrorLocalDNSNotFound` (matched via `errors.Is`). -/
inductive TokenErr where
  | localDNSNotFound
  | other (message : String)
deriving DecidableEq, Repr

/-- Abstract oracle for the external `go-pihole` `LocalDNS` service used on
the token-authenticated path. -/
structure TokenClient where
  list : Except String DNSRecordList
  create : String → String → Except String DNSRecord
  get : String → Except TokenErr DNSRecord
  getList : String → Except TokenErr (List DNSRecord)
  delete : String → Except String Unit

/-- A form-encoded HTTP request as built by `RequestWithSession`. -/
structure FormRequest where
  method : String
  path : String
  params : List (String × List String)
deriving DecidableEq, Repr

/-- Model of the `pihole.Client`: an optional token client plus the session HTTP
layer (as oracles, see the module docstring). -/
structure Client where
  tokenClient : Option TokenClient
  buildReq : FormRequest → Except String Unit
  listDo : FormRequest → Except String DNSRecordsListResponse
  createDo : FormRequest → Except String CreateDNSRecordResponse
  deleteDo : FormRequest → Except String Unit

/-- The PHP admin endpoint used by every session-path request. -/
def customdnsPath : String := "/admin/scripts/pi-hole/php/customdns.php"

/-- The request sent by the session path of `ListDNSRecords`. -/
def listReq : FormRequest :=
  { method := "POST", path := customdnsPath, params := [("action", ["get"])] }

/-- The request sent by the session path of `CreateDNSRecord`. -/
def createReq (record : DNSRecord) : FormRequest :=
  { method := "POST", path := customdnsPath
    params := [("action", ["add"]), ("ip", [record.IP]), ("domain", [record.Domain])] }

/-- The request sent per record by the session path of `DeleteDNSRecord`. -/
def deleteReq (record : DNSRecord) : FormRequest :=
  { method := "POST", path := customdnsPath
    params := [("action", ["delete"]), ("ip", [record.IP]), ("domain", [record.Domain])] }

/-- Models Go `strings.ToLower` by per-character lowering (ASCII suffices
for domain names; defined over the character list so that it reduces). -/
def toLowerStr (s : String) : String :=
  String.mk (s.toList.map Char.toLower)

/-- Models Go `strings.Split(s, "_")`: the fragments of `s` between
underscores, `[""]` on the empty string (defined over the character list so
that it reduces). -/
def splitUnderscore (s : String) : List String :=
  (s.toList.foldr
    (fun ch acc =>
      if ch = '_' then [] :: acc
      else match acc with
        | cur :: rest => (ch :: cur) :: rest
        | [] => [[ch]])
    [[]]).map String.mk

/-- A plain Go error becomes a non-`NotFoundError` client error. -/
def liftPlain {α : Type} : Except String α → Except PiError α
  | .error e => .error (.goError e)
  | .ok a => .ok a

/-- Message of the `NotFoundError` built in `GetDNSRecord` / `GetDNSRecordList`
token paths (`fmt.Sprintf("dns record with domain %q not found", domain)`). -/
def notFoundGetMsg (domain : String) : String :=
  "dns record with domain \"" ++ domain ++ "\" not found"

/-- Message of the `NotFoundError` built in the `GetDNSRecordList` fallback
(`fmt.Sprintf("record %q not found", domain)`). -/
def notFoundListMsg (domain : String) : String :=
  "record \"" ++ domain ++ "\" not found"

/-- Result of an operation that can additionally panic at runtime. -/
inductive GoResult (α : Type) where
  | ok (a : α)
  | err (e : PiError)
  | panicked
deriving DecidableEq, Repr

/-- Session fallback of `ListDNSRecords`: POST `action=get` to
`customdns.php`, decode the body, convert with `ToDNSRecordList`. -/
def Client.listFallback (c : Client) : Except PiError DNSRecordList × List FormRequest :=
  match c.buildReq listReq with
  | .error e => (.error (.goError e), [])
  | .ok _ =>
    match c.listDo listReq with
    | .error e => (.error (.goError e), [listReq])
    | .ok dnsRes => (.ok dnsRes.ToDNSRecordList, [listReq])

/-- Model of `ListDNSRecords` from `dns.go`. -/
def Client.ListDNSRecords (c : Client) : Except PiError DNSRecordList × List FormRequest :=
  match c.tokenClient with
  | some t => (liftPlain t.list, [])
  | none => c.listFallback

/-- Session fallback of `CreateDNSRecord`: POST `action=add` with the
record's ip and domain; a decoded response with `Success = false` becomes
an error carrying its `Message`; otherwise the passed record is returned. -/
def Client.createFallback (c : Client) (record : DNSRecord) :
    Except PiError DNSRecord × List FormRequest :=
  match c.buildReq (createReq record) with
  | .error e => (.error (.goError e), [])
  | .ok _ =>
    match c.createDo (createReq record) with
    | .error e => (.error (.goError e), [createReq record])
    | .ok created =>
      if !created.Success then (.error (.goError created.Message), [createReq record])
      else (.ok record, [createReq record])

/-- Model of `CreateDNSRecord` from `dns.go`. -/
def Client.CreateDNSRecord (c : Client) (record : DNSRecord) :
    Except PiError DNSRecord × List FormRequest :=
  match c.tokenClient with
  | some t => (liftPlain (t.create record.Domain record.IP), [])
  | none => c.createFallback record

/-- Token path of `GetDNSRecordList`: `ErrorLocalDNSNotFound` is translated
into a `NotFoundError`. -/
def tokenGetList (t : TokenClient) (domain : String) : Except PiError (List DNSRecord) :=
  match t.getList domain with
  | .error .localDNSNotFound => .error (.notFound (notFoundGetMsg domain))
  | .error (.other e) => .error (.goError e)
  | .ok records => .ok records

/-- Session fallback of `GetDNSRecordList`: list all records, keep those
whose `Domain` equals `strings.ToLower(domain)`, error with a
`NotFoundError` when none match. -/
def Client.getListFallback (c : Client) (domain : String) :
    Except PiError (List DNSRecord) × List FormRequest :=
  match c.ListDNSRecords with
  | (.error e, reqs) => (.error e, reqs)
  | (.ok list, reqs) =>
    let results := list.filter (fun record => record.Domain == toLowerStr domain)
    if results.length == 0 then
      (.error (.notFound (notFoundListMsg domain)), reqs)
    else
      (.ok results, reqs)

/-- Model of `GetDNSRecordList` from `dns.go`. -/
def Client.GetDNSRecordList (c : Client) (domain : String) :
    Except PiError (List DNSRecord) × List FormRequest :=
  match c.tokenClient with
  | some t => (tokenGetList t domain, [])
  | none => c.getListFallback domain

/-- Token path of `GetDNSRecord`. -/
def tokenGet (t : TokenClient) (domain : String) : GoResult DNSRecord :=
  match t.get domain with
  | .error .localDNSNotFound => .err (.notFound (notFoundGetMsg domain))
  | .error (.other e) => .err (.goError e)
  | .ok record => .ok record

/-- Session fallback of `GetDNSRecord`: `return list[0], nil`, where `list`
comes from `GetDNSRecordList`; indexing an empty slice panics in Go. -/
def Client.getFallback (c : Client) (domain : String) :
    GoResult DNSRecord × List FormRequest :=
  match c.GetDNSRecordList domain with
  | (.error e, reqs) => (.err e, reqs)
  | (.ok list, reqs) =>
    match list with
    | [] => (.panicked, reqs)
    | record :: _ => (.ok record, reqs)

/-- Model of `GetDNSRecord` from `dns.go`. -/
def Client.GetDNSRecord (c : Client) (domain : String) :
    GoResult DNSRecord × List FormRequest :=
  match c.tokenClient with
  | some t => (tokenGet t domain, [])
  | none => c.getFallback domain

/-- The per-record deletion loop of `DeleteDNSRecord`: one POST
`action=delete` per record, returning at the first error. -/
def Client.deleteLoop (c : Client) : List DNSRecord → Except PiError Unit × List FormRequest
  | [] => (.ok (), [])
  | record :: rest =>
    match c.buildReq (deleteReq record) with
    | .error e => (.error (.goError e), [])
    | .ok _ =>
      match c.deleteDo (deleteReq record) with
      | .error e => (.error (.goError e), [deleteReq record])
      | .ok _ =>
        let next := c.deleteLoop rest
        (next.1, deleteReq record :: next.2)

/-- Session fallback of `DeleteDNSRecord`: look up the matching records,
then delete each of them in turn. -/
def Client.deleteFallback (c : Client) (domain : String) :
    Except PiError Unit × List FormRequest :=
  match c.GetDNSRecordList domain with
  | (.error e, reqs) => (.error e, reqs)
  | (.ok records, reqs) =>
    let res := c.deleteLoop records
    (res.1, reqs ++ res.2)

/-- Model of `DeleteDNSRecord` from `dns.go`. -/
def Client.DeleteDNSRecord (c : Client) (domain : String) :
    Except PiError Unit × List FormRequest :=
  match c.tokenClient with
  | some t => (liftPlain (t.delete domain), [])
  | none => c.deleteFallback domain

/-- Terraform resource state, restricted to what the DNS-record resource
uses: the resource ID and the two schema attributes. -/
structure ResourceData where
  id : String
  domain : String
  ip : String
deriving DecidableEq, Repr

/-- Outcome of a CRUD handler: nil diagnostics with the final resource
state, an error diagnostic (built by `diag.FromErr`, state unchanged), or a
runtime panic.  `d.Set` is modelled as an always-successful state update. -/
inductive RRes where
  | done (d : ResourceData)
  | diagErr (e : PiError) (d : ResourceData)
  | panicked (d : ResourceData)
deriving DecidableEq, Repr

/-- Model of `resourceDNSRecordCreate` from `resource_dns_record.go`: create the
record from the `domain` and `ip` attributes, then set the ID to
`fmt.Sprintf("%s_%s", domain, ip)`. -/
def resourceDNSRecordCreate (c : Client) (d : ResourceData) : RRes :=
  match (c.CreateDNSRecord { Domain := d.domain, IP := d.ip }).1 with
  | .error e => .diagErr e d
  | .ok _ => .done { d with id := d.domain ++ "_" ++ d.ip }

/-- Model of `resourceDNSRecordRead` from `resource_dns_record.go`: split the ID on
underscores, query `GetDNSRecordList` with the whole ID, keep the last
record whose IP equals element 1 of the split (Go evaluates `id[1]` inside
the loop, so it panics only when a record exists and the split is short);
a `NotFoundError` or no surviving record clears the ID. -/
def resourceDNSRecordRead (c : Client) (d : ResourceData) : RRes :=
  let idParts := splitUnderscore d.id
  match (c.GetDNSRecordList d.id).1 with
  | .error (.notFound _) => .done { d with id := "" }
  | .error e => .diagErr e d
  | .ok records =>
    match records with
    | [] => .done { d with id := "" }
    | _ :: _ =>
      match idParts[1]? with
      | none => .panicked d
      | some part =>
        match (records.filter (fun r => r.IP == part)).getLast? with
        | none => .done { d with id := "" }
        | some record => .done { d with domain := record.Domain, ip := record.IP }

/-- Model of `resourceDNSRecordDelete` from `resource_dns_record.go`. -/
def resourceDNSRecordDelete (c : Client) (d : ResourceData) : RRes :=
  match (c.DeleteDNSRecord d.id).1 with
  | .error e => .diagErr e d
  | .ok _ => .done { d with id := "" }

/-- The value type of a schema attribute (only `TypeString` occurs). -/
inductive SchemaValueType where
  | TypeString
deriving DecidableEq, Repr

/-- A schema attribute as configured in `resourceDNSRecord`. -/
structure SchemaAttr where
  Description : String
  ValueType : SchemaValueType
  Required : Bool
  ForceNew : Bool
deriving DecidableEq, Repr

/-- The parts of `schema.Resource` that `resourceDNSRecord` sets: the four
optional lifecycle handlers, the importer, and the attribute schema. -/
structure Resource where
  Description : String
  CreateContext : Option (Client → ResourceData → RRes)
  ReadContext : Option (Client → ResourceData → RRes)
  UpdateContext : Option (Client → ResourceData → RRes)
  DeleteContext : Option (Client → ResourceData → RRes)
  hasImporter : Bool
  Schema : List (String × SchemaAttr)

/-- Model of `resourceDNSRecord` from `resource_dns_record.go`. -/
def resourceDNSRecord : Resource :=
  { Description := "Manages a Pi-hole DNS record"
    CreateContext := some resourceDNSRecordCreate
    ReadContext := some resourceDNSRecordRead
    UpdateContext := none
    DeleteContext := some resourceDNSRecordDelete
    hasImporter := true
    Schema :=
      [ ("domain",
          { Description := "DNS record domain"
            ValueType := .TypeString, Required := true, ForceNew := true })
      , ("ip",
          { Description := "IP address to route traffic to from the DNS record domain"
            ValueType := .TypeString, Required := true, ForceNew := true }) ] }

/-- Modelled from the spec claim's words, not from the source: the substring
of `s` after the first underscore (empty when there is none). -/
def afterFirstUnderscore (s : String) : String :=
  String.mk ((s.toList.dropWhile (fun ch => ch ≠ '_')).drop 1)

/-- Modelled from the spec claim's words, not from the source: a read that
selects the last returned record whose IP equals the substring after the
first underscore of the whole ID. -/
def readClaimPredicted (c : Client) (d : ResourceData) : RRes :=
  match (c.GetDNSRecordList d.id).1 with
  | .error (.notFound _) => .done { d with id := "" }
  | .error e => .diagErr e d
  | .ok records =>
    match (records.filter (fun r => r.IP == afterFirstUnderscore d.id)).getLast? with
    | none => .done { d with id := "" }
    | some record => .done { d with domain := record.Domain, ip := record.IP }

/-- A concrete token-client oracle, used in witnesses. -/
def egToken : TokenClient :=
  { list := .ok [{ Domain := "token.example", IP := "10.0.0.1" }]
    create := fun domain ip => .ok { Domain := domain, IP := ip }
    get := fun _ => .error .localDNSNotFound
    getList := fun _ => .ok [{ Domain := "token.example", IP := "10.0.0.1" }]
    delete := fun _ => .ok () }

/-- A concrete client on the token path, used in witnesses. -/
def egClientT : Client :=
  { tokenClient := some egToken
    buildReq := fun _ => .ok ()
    listDo := fun _ => .ok { Data := [] }
    createDo := fun _ => .ok { Success := true, Message := "" }
    deleteDo := fun _ => .ok () }

/-- A concrete client on the session path whose list endpoint returns two
records, used in witnesses. -/
def egClientS : Client :=
  { tokenClient := none
    buildReq := fun _ => .ok ()
    listDo := fun _ => .ok { Data := [["example.com", "1.2.3.4"], ["other.com", "5.6.7.8"]] }
    createDo := fun _ => .ok { Success := true, Message := "" }
    deleteDo := fun _ => .ok () }

theorem listDNSRecords_some (c : Client) (t : TokenClient) (h : c.tokenClient = some t) :
    c.ListDNSRecords = (liftPlain t.list, []) := by
  simp [Client.ListDNSRecords, h]

theorem listDNSRecords_none (c : Client) (h : c.tokenClient = none) :
    c.ListDNSRecords = c.listFallback := by
  simp [Client.ListDNSRecords, h]

theorem createDNSRecord_some (c : Client) (t : TokenClient) (record : DNSRecord)
    (h : c.tokenClient = some t) :
    c.CreateDNSRecord record = (liftPlain (t.create record.Domain record.IP), []) := by
  simp [Client.CreateDNSRecord, h]

theorem createDNSRecord_none (c : Client) (record : DNSRecord) (h : c.tokenClient = none) :
    c.CreateDNSRecord record = c.createFallback record := by
  simp [Client.CreateDNSRecord, h]

theorem getDNSRecordList_some (c : Client) (t : TokenClient) (domain : String)
    (h : c.tokenClient = some t) :
    c.GetDNSRecordList domain = (tokenGetList t domain, []) := by
  simp [Client.GetDNSRecordList, h]

theorem getDNSRecordList_none (c : Client) (domain : String) (h : c.tokenClient = none) :
    c.GetDNSRecordList domain = c.getListFallback domain := by
  simp [Client.GetDNSRecordList, h]

theorem getDNSRecord_some (c : Client) (t : TokenClient) (domain : String)
    (h : c.tokenClient = some t) :
    c.GetDNSRecord domain = (tokenGet t domain, []) := by
  simp [Client.GetDNSRecord, h]

theorem getDNSRecord_none (c : Client) (domain : String) (h : c.tokenClient = none) :
    c.GetDNSRecord domain = c.getFallback domain := by
  simp [Client.GetDNSRecord, h]

theorem deleteDNSRecord_some (c : Client) (t : TokenClient) (domain : String)
    (h : c.tokenClient = some t) :
    c.DeleteDNSRecord domain = (liftPlain (t.delete domain), []) := by
  simp [Client.DeleteDNSRecord, h]

theorem deleteDNSRecord_none (c : Client) (domain : String) (h : c.tokenClient = none) :
    c.DeleteDNSRecord domain = c.deleteFallback domain := by
  simp [Client.DeleteDNSRecord, h]

/-- Claim C1: every DNS client operation delegates to the corresponding
token-client library call and issues no session-based form POST when
`tokenClient` is non-nil, and takes the session-based fallback path when
`tokenClient` is nil. -/
theorem dns_client_dual_path (c : Client) (t : TokenClient) (domain : String)
    (record : DNSRecord) :
    (c.tokenClient = some t →
      c.ListDNSRecords = (liftPlain t.list, []) ∧
      c.CreateDNSRecord record = (liftPlain (t.create record.Domain record.IP), []) ∧
      c.GetDNSRecord domain = (tokenGet t domain, []) ∧
      c.GetDNSRecordList domain = (tokenGetList t domain, []) ∧
      c.DeleteDNSRecord domain = (liftPlain (t.delete domain), [])) ∧
    (c.tokenClient = none →
      c.ListDNSRecords = c.listFallback ∧
      c.CreateDNSRecord record = c.createFallback record ∧
      c.GetDNSRecord domain = c.getFallback domain ∧
      c.GetDNSRecordList domain = c.getListFallback domain ∧
      c.DeleteDNSRecord domain = c.deleteFallback domain) := by
  constructor
  · intro h
    exact ⟨listDNSRecords_some c t h, createDNSRecord_some c t record h,
      getDNSRecord_some c t domain h, getDNSRecordList_some c t domain h,
      deleteDNSRecord_some c t domain h⟩
  · intro h
    exact ⟨listDNSRecords_none c h, createDNSRecord_none c record h,
      getDNSRecord_none c domain h, getDNSRecordList_none c domain h,
      deleteDNSRecord_none c domain h⟩

/-- Witness for C1 at the concrete token-path and session-path clients. -/
theorem dns_client_dual_path_witness :
    (egClientT.ListDNSRecords = (liftPlain egToken.list, []) ∧
      egClientT.CreateDNSRecord { Domain := "a.com", IP := "1.2.3.4" } =
        (liftPlain (egToken.create "a.com" "1.2.3.4"), []) ∧
      egClientT.GetDNSRecord "example.com" = (tokenGet egToken "example.com", []) ∧
      egClientT.GetDNSRecordList "example.com" = (tokenGetList egToken "example.com", []) ∧
      egClientT.DeleteDNSRecord "example.com" = (liftPlain (egToken.delete "example.com"), [])) ∧
    (egClientS.ListDNSRecords = egClientS.listFallback ∧
      egClientS.CreateDNSRecord { Domain := "a.com", IP := "1.2.3.4" } =
        egClientS.createFallback { Domain := "a.com", IP := "1.2.3.4" } ∧
      egClientS.GetDNSRecord "example.com" = egClientS.getFallback "example.com" ∧
      egClientS.GetDNSRecordList "example.com" = egClientS.getListFallback "example.com" ∧
      egClientS.DeleteDNSRecord "example.com" = egClientS.deleteFallback "example.com") :=
  ⟨(dns_client_dual_path egClientT egToken "example.com" { Domain := "a.com", IP := "1.2.3.4" }).1 rfl,
   (dns_client_dual_path egClientS egToken "example.com" { Domain := "a.com", IP := "1.2.3.4" }).2 rfl⟩

theorem listDNSRecords_eta (c : Client) (list : DNSRecordList)
    (hl : (c.ListDNSRecords).1 = .ok list) :
    c.ListDNSRecords = (.ok list, (c.ListDNSRecords).2) := by
  rw [← hl]

theorem getListFallback_of_list (c : Client) (domain : String) (list : DNSRecordList)
    (hl : (c.ListDNSRecords).1 = .ok list) :
    c.getListFallback domain =
      (if (list.filter (fun record => record.Domain == toLowerStr domain)).length == 0 then
        (.error (.notFound (notFoundListMsg domain)), (c.ListDNSRecords).2)
      else
        (.ok (list.filter (fun record => record.Domain == toLowerStr domain)),
          (c.ListDNSRecords).2)) := by
  unfold Client.getListFallback
  rw [listDNSRecords_eta c list hl]

/-- Claim C2: with `tokenClient` nil, `GetDNSRecordList` returns exactly the
records of the `ListDNSRecords` result, in list order, whose `Domain` is
equal (case-sensitively, via Go `==`) to `strings.ToLower` of the queried
domain, and returns a `NotFoundError` when no record matches. -/
theorem getDNSRecordList_filters (c : Client) (domain : String) (list : DNSRecordList)
    (hn : c.tokenClient = none)
    (hl : (c.ListDNSRecords).1 = .ok list) :
    (list.filter (fun record => record.Domain == toLowerStr domain) = [] →
      (c.GetDNSRecordList domain).1 = .error (.notFound (notFoundListMsg domain))) ∧
    (list.filter (fun record => record.Domain == toLowerStr domain) ≠ [] →
      (c.GetDNSRecordList domain).1 =
        .ok (list.filter (fun record => record.Domain == toLowerStr domain))) := by
  rw [getDNSRecordList_none c domain hn, getListFallback_of_list c domain list hl]
  constructor
  · intro hempty
    simp [hempty]
  · intro hne
    rw [if_neg]
    simp only [beq_iff_eq, List.length_eq_zero]
    exact hne

/-- Witness for C2: a matching and a non-matching query on the concrete
session-path client. -/
theorem getDNSRecordList_filters_witness :
    (egClientS.GetDNSRecordList "EXAMPLE.com").1 =
      .ok [{ Domain := "example.com", IP := "1.2.3.4" }] ∧
    (egClientS.GetDNSRecordList "nosuch.com").1 =
      .error (.notFound (notFoundListMsg "nosuch.com")) :=
  ⟨(getDNSRecordList_filters egClientS "EXAMPLE.com"
      [{ Domain := "example.com", IP := "1.2.3.4" }, { Domain := "other.com", IP := "5.6.7.8" }]
      rfl rfl).2 (by decide),
   (getDNSRecordList_filters egClientS "nosuch.com"
      [{ Domain := "example.com", IP := "1.2.3.4" }, { Domain := "other.com", IP := "5.6.7.8" }]
      rfl rfl).1 (by decide)⟩

/-- Claim C4: `ToDNSRecordList` maps `Data` pointwise: the result has the
same length, and element `i` has `Domain = Data[i][0]` and `IP = Data[i][1]`,
under the precondition that every row of `Data` has at least two entries. -/
theorem toDNSRecordList_pointwise (rr : DNSRecordsListResponse)
    (h : ∀ row ∈ rr.Data, 2 ≤ row.length) :
    rr.ToDNSRecordList.length = rr.Data.length ∧
    ∀ i, i < rr.Data.length →
      ∃ d ip rest, rr.Data[i]? = some (d :: ip :: rest) ∧
        rr.ToDNSRecordList[i]? = some { Domain := d, IP := ip } := by
  constructor
  · simp [DNSRecordsListResponse.ToDNSRecordList]
  · intro i hi
    have hrow : rr.Data[i]? = some rr.Data[i] := List.getElem?_eq_getElem hi
    have hlen : 2 ≤ rr.Data[i].length := h _ (List.getElem_mem hi)
    match hrow2 : rr.Data[i] with
    | [] => rw [hrow2] at hlen; simp at hlen
    | [d] => rw [hrow2] at hlen; simp at hlen
    | d :: ip :: rest =>
      refine ⟨d, ip, rest, by rw [hrow, hrow2], ?_⟩
      unfold DNSRecordsListResponse.ToDNSRecordList
      rw [List.getElem?_map, hrow, hrow2]
      simp

/-- Witness for C4 at a concrete two-row response. -/
theorem toDNSRecordList_pointwise_witness :
    ({ Data := [["example.com", "1.2.3.4"], ["other.com", "5.6.7.8", "extra"]] } :
        DNSRecordsListResponse).ToDNSRecordList.length = 2 ∧
    ∀ i, i < 2 →
      ∃ d ip rest,
        ([["example.com", "1.2.3.4"], ["other.com", "5.6.7.8", "extra"]] :
            List (List String))[i]? = some (d :: ip :: rest) ∧
        ({ Data := [["example.com", "1.2.3.4"], ["other.com", "5.6.7.8", "extra"]] } :
            DNSRecordsListResponse).ToDNSRecordList[i]? = some { Domain := d, IP := ip } :=
  toDNSRecordList_pointwise
    { Data := [["example.com", "1.2.3.4"], ["other.com", "5.6.7.8", "extra"]] }
    (by decide)

theorem listFallback_reqs (c : Client) :
    (c.listFallback).2 = [] ∨ (c.listFallback).2 = [listReq] := by
  unfold Client.listFallback
  cases hb : c.buildReq listReq with
  | error e => simp
  | ok u =>
    cases hd : c.listDo listReq with
    | error e => simp
    | ok res => simp

theorem createFallback_reqs (c : Client) (record : DNSRecord) :
    (c.createFallback record).2 = [] ∨ (c.createFallback record).2 = [createReq record] := by
  unfold Client.createFallback
  cases hb : c.buildReq (createReq record) with
  | error e => simp
  | ok u =>
    cases hd : c.createDo (createReq record) with
    | error e => simp
    | ok created =>
      by_cases hs : created.Success
      · simp [hs]
      · simp [hs]

theorem getListFallback_reqs (c : Client) (domain : String) :
    (c.getListFallback domain).2 = (c.ListDNSRecords).2 := by
  unfold Client.getListFallback
  rcases hres : c.ListDNSRecords with ⟨res, reqs⟩
  cases res with
  | error e => rfl
  | ok list =>
    by_cases hz :
        (list.filter (fun record => record.Domain == toLowerStr domain)).length = 0
    · simp [hz]
    · simp [hz]

theorem deleteLoop_reqs_prefix (c : Client) (records : List DNSRecord) :
    ∃ k, (c.deleteLoop records).2 = (records.map deleteReq).take k := by
  induction records with
  | nil => exact ⟨0, rfl⟩
  | cons r rest ih =>
    unfold Client.deleteLoop
    cases hb : c.buildReq (deleteReq r) with
    | error e => exact ⟨0, by simp⟩
    | ok u =>
      cases hd : c.deleteDo (deleteReq r) with
      | error e => exact ⟨1, by simp⟩
      | ok u2 =>
        obtain ⟨k, hk⟩ := ih
        exact ⟨k + 1, by simp [hk]⟩

theorem deleteLoop_ok_reqs (c : Client) (records : List DNSRecord)
    (h : (c.deleteLoop records).1 = .ok ()) :
    (c.deleteLoop records).2 = records.map deleteReq := by
  induction records with
  | nil => rfl
  | cons r rest ih =>
    unfold Client.deleteLoop at h ⊢
    cases hb : c.buildReq (deleteReq r) with
    | error e => rw [hb] at h; simp at h
    | ok u =>
      rw [hb] at h
      cases hd : c.deleteDo (deleteReq r) with
      | error e => rw [hd] at h; simp at h
      | ok u2 =>
        rw [hd] at h
        simp only [List.map_cons, List.cons.injEq, true_and]
        exact ih h

theorem getDNSRecordList_eta (c : Client) (domain : String) (records : List DNSRecord)
    (hg : (c.GetDNSRecordList domain).1 = .ok records) :
    c.GetDNSRecordList domain = (.ok records, (c.GetDNSRecordList domain).2) := by
  rw [← hg]

/-- Claim C5: on the fallback path every issued request is a form-encoded
POST to `/admin/scripts/pi-hole/php/customdns.php`; `ListDNSRecords` sends
`action=get`, `CreateDNSRecord` sends `action=add` with the record's ip and
domain, and `DeleteDNSRecord` sends one `action=delete` request per matching
record (with that record's ip and domain), in order, stopping at the first
request that errors (its log is a prefix of the per-record request list,
and the full list when the loop succeeds). -/
theorem fallback_request_shapes (c : Client) (domain : String) (record : DNSRecord)
    (hn : c.tokenClient = none) :
    ((c.ListDNSRecords).2 = [] ∨ (c.ListDNSRecords).2 = [listReq]) ∧
    listReq =
      { method := "POST", path := customdnsPath, params := [("action", ["get"])] } ∧
    ((c.CreateDNSRecord record).2 = [] ∨
      (c.CreateDNSRecord record).2 = [createReq record]) ∧
    createReq record =
      { method := "POST", path := customdnsPath
        params := [("action", ["add"]), ("ip", [record.IP]), ("domain", [record.Domain])] } ∧
    (∀ r : DNSRecord, deleteReq r =
      { method := "POST", path := customdnsPath
        params := [("action", ["delete"]), ("ip", [r.IP]), ("domain", [r.Domain])] }) ∧
    (c.GetDNSRecordList domain).2 = (c.ListDNSRecords).2 ∧
    (∀ records, (c.GetDNSRecordList domain).1 = .ok records →
      (c.DeleteDNSRecord domain).2 =
        (c.GetDNSRecordList domain).2 ++ (c.deleteLoop records).2 ∧
      (∃ k, (c.deleteLoop records).2 = (records.map deleteReq).take k) ∧
      ((c.deleteLoop records).1 = .ok () →
        (c.deleteLoop records).2 = records.map deleteReq)) := by
  refine ⟨?_, rfl, ?_, rfl, fun r => rfl, ?_, ?_⟩
  · rw [listDNSRecords_none c hn]
    exact listFallback_reqs c
  · rw [createDNSRecord_none c record hn]
    exact createFallback_reqs c record
  · rw [getDNSRecordList_none c domain hn]
    exact getListFallback_reqs c domain
  · intro records hg
    refine ⟨?_, deleteLoop_reqs_prefix c records, deleteLoop_ok_reqs c records⟩
    rw [deleteDNSRecord_none c domain hn]
    unfold Client.deleteFallback
    rw [getDNSRecordList_eta c domain records hg]

/-- Witness for C5 on the concrete session-path client. -/
theorem fallback_request_shapes_witness :
    ((egClientS.ListDNSRecords).2 = [] ∨ (egClientS.ListDNSRecords).2 = [listReq]) ∧
    listReq =
      { method := "POST", path := customdnsPath, params := [("action", ["get"])] } ∧
    ((egClientS.CreateDNSRecord { Domain := "a.com", IP := "1.2.3.4" }).2 = [] ∨
      (egClientS.CreateDNSRecord { Domain := "a.com", IP := "1.2.3.4" }).2 =
        [createReq { Domain := "a.com", IP := "1.2.3.4" }]) ∧
    createReq { Domain := "a.com", IP := "1.2.3.4" } =
      { method := "POST", path := customdnsPath
        params := [("action", ["add"]), ("ip", ["1.2.3.4"]), ("domain", ["a.com"])] } ∧
    (∀ r : DNSRecord, deleteReq r =
      { method := "POST", path := customdnsPath
        params := [("action", ["delete"]), ("ip", [r.IP]), ("domain", [r.Domain])] }) ∧
    (egClientS.GetDNSRecordList "example.com").2 = (egClientS.ListDNSRecords).2 ∧
    (∀ records, (egClientS.GetDNSRecordList "example.com").1 = .ok records →
      (egClientS.DeleteDNSRecord "example.com").2 =
        (egClientS.GetDNSRecordList "example.com").2 ++ (egClientS.deleteLoop records).2 ∧
      (∃ k, (egClientS.deleteLoop records).2 = (records.map deleteReq).take k) ∧
      ((egClientS.deleteLoop records).1 = .ok () →
        (egClientS.deleteLoop records).2 = records.map deleteReq)) :=
  fallback_request_shapes egClientS "example.com" { Domain := "a.com", IP := "1.2.3.4" } rfl

/-- Claim C6: the DNS record resource registers exactly the create, read and
delete lifecycle handlers (no update handler), and both schema attributes,
`domain` and `ip`, are `Required` and `ForceNew`. -/
theorem resourceDNSRecord_lifecycle :
    resourceDNSRecord.CreateContext = some resourceDNSRecordCreate ∧
    resourceDNSRecord.ReadContext = some resourceDNSRecordRead ∧
    resourceDNSRecord.DeleteContext = some resourceDNSRecordDelete ∧
    resourceDNSRecord.UpdateContext = none ∧
    resourceDNSRecord.Schema.map Prod.fst = ["domain", "ip"] ∧
    ∀ a ∈ resourceDNSRecord.Schema, a.2.Required = true ∧ a.2.ForceNew = true := by
  refine ⟨rfl, rfl, rfl, rfl, rfl, ?_⟩
  intro a ha
  simp only [resourceDNSRecord, List.mem_cons, List.mem_singleton] at ha
  rcases ha with h | h | h
  · rw [h]; exact ⟨rfl, rfl⟩
  · rw [h]; exact ⟨rfl, rfl⟩
  · exact absurd h (List.not_mem_nil a)

/-- Witness for C6 instantiating the attribute quantifier at `domain`. -/
theorem resourceDNSRecord_lifecycle_witness :
    ("domain",
      ({ Description := "DNS record domain", ValueType := .TypeString
         Required := true, ForceNew := true } : SchemaAttr)).2.Required = true ∧
    ("domain",
      ({ Description := "DNS record domain", ValueType := .TypeString
         Required := true, ForceNew := true } : SchemaAttr)).2.ForceNew = true :=
  resourceDNSRecord_lifecycle.2.2.2.2.2 _ (by simp [resourceDNSRecord])

/-- Claim C7: `resourceDNSRecordCreate` calls `CreateDNSRecord` with exactly
the `domain` and `ip` attributes; on success it sets the ID to
`domain ++ "_" ++ ip`, and on error it returns a diagnostic with the
resource state (in particular the ID) unchanged. -/
theorem resourceDNSRecordCreate_behavior (c : Client) (d : ResourceData) :
    (∀ r, (c.CreateDNSRecord { Domain := d.domain, IP := d.ip }).1 = .ok r →
      resourceDNSRecordCreate c d = .done { d with id := d.domain ++ "_" ++ d.ip }) ∧
    (∀ e, (c.CreateDNSRecord { Domain := d.domain, IP := d.ip }).1 = .error e →
      resourceDNSRecordCreate c d = .diagErr e d) := by
  constructor
  · intro r hr
    unfold resourceDNSRecordCreate
    rw [hr]
  · intro e he
    unfold resourceDNSRecordCreate
    rw [he]

/-- A concrete session-path client whose create endpoint reports failure,
used in witnesses. -/
def egClientFail : Client :=
  { tokenClient := none
    buildReq := fun _ => .ok ()
    listDo := fun _ => .ok { Data := [] }
    createDo := fun _ => .ok { Success := false, Message := "record exists" }
    deleteDo := fun _ => .ok () }

/-- Witness for C7: a successful and a failing create on concrete clients. -/
theorem resourceDNSRecordCreate_behavior_witness :
    resourceDNSRecordCreate egClientS { id := "", domain := "a.com", ip := "1.1.1.1" } =
      .done { id := "a.com_1.1.1.1", domain := "a.com", ip := "1.1.1.1" } ∧
    resourceDNSRecordCreate egClientFail { id := "", domain := "a.com", ip := "1.1.1.1" } =
      .diagErr (.goError "record exists") { id := "", domain := "a.com", ip := "1.1.1.1" } :=
  ⟨(resourceDNSRecordCreate_behavior egClientS { id := "", domain := "a.com", ip := "1.1.1.1" }).1
      { Domain := "a.com", IP := "1.1.1.1" } rfl,
   (resourceDNSRecordCreate_behavior egClientFail { id := "", domain := "a.com", ip := "1.1.1.1" }).2
      (.goError "record exists") rfl⟩

/-- Claim C8: on the fallback path, when the response decodes, the result of
`CreateDNSRecord` is an error carrying the decoded `Message` exactly when
the decoded `Success` is `false`; when `Success` is `true` it returns the
record it was passed, unmodified. -/
theorem createDNSRecord_fallback_result (c : Client) (record : DNSRecord)
    (resp : CreateDNSRecordResponse)
    (hn : c.tokenClient = none)
    (hb : c.buildReq (createReq record) = .ok ())
    (hd : c.createDo (createReq record) = .ok resp) :
    ((c.CreateDNSRecord record).1 = .error (.goError resp.Message) ↔
      resp.Success = false) ∧
    (resp.Success = true → (c.CreateDNSRecord record).1 = .ok record) := by
  rw [createDNSRecord_none c record hn]
  unfold Client.createFallback
  rw [hb, hd]
  rcases hs : resp.Success
  · simp [hs]
  · simp [hs]

/-- Witness for C8: the failing and succeeding concrete create responses. -/
theorem createDNSRecord_fallback_result_witness :
    ((egClientFail.CreateDNSRecord { Domain := "a.com", IP := "1.1.1.1" }).1 =
        .error (.goError "record exists") ↔
      ({ Success := false, Message := "record exists" } :
        CreateDNSRecordResponse).Success = false) ∧
    (({ Success := false, Message := "record exists" } :
        CreateDNSRecordResponse).Success = true →
      (egClientFail.CreateDNSRecord { Domain := "a.com", IP := "1.1.1.1" }).1 =
        .ok { Domain := "a.com", IP := "1.1.1.1" }) :=
  createDNSRecord_fallback_result egClientFail { Domain := "a.com", IP := "1.1.1.1" }
    { Success := false, Message := "record exists" } rfl rfl rfl

theorem getListFallback_ok_ne_nil (c : Client) (domain : String) (l : List DNSRecord)
    (h : (c.getListFallback domain).1 = .ok l) : l ≠ [] := by
  rcases hres : c.ListDNSRecords with ⟨res, reqs⟩
  cases res with
  | error e =>
    unfold Client.getListFallback at h
    rw [hres] at h
    simp at h
  | ok list =>
    rw [getListFallback_of_list c domain list (by rw [hres])] at h
    by_cases hz :
        (list.filter (fun record => record.Domain == toLowerStr domain)).length = 0
    · have hb : ((list.filter
          (fun record => record.Domain == toLowerStr domain)).length == 0) = true := by
        simpa using hz
      rw [hb] at h
      simp at h
    · have hb : ((list.filter
          (fun record => record.Domain == toLowerStr domain)).length == 0) = false := by
        simpa using hz
      rw [hb] at h
      intro hnil
      apply hz
      have hfl : list.filter (fun record => record.Domain == toLowerStr domain) = l := by
        simpa using h
      rw [hfl, hnil]
      rfl

/-- Claim C9: with `tokenClient` nil, `GetDNSRecordList` never returns a nil
error together with an empty list, hence the `list[0]` access in
`GetDNSRecord` never panics and `GetDNSRecord` returns the first record of
the matching list. -/
theorem getDNSRecord_fallback_safe (c : Client) (domain : String)
    (hn : c.tokenClient = none) :
    (∀ l, (c.GetDNSRecordList domain).1 = .ok l → l ≠ []) ∧
    (c.GetDNSRecord domain).1 ≠ GoResult.panicked ∧
    (∀ r rest, (c.GetDNSRecordList domain).1 = .ok (r :: rest) →
      (c.GetDNSRecord domain).1 = .ok r) := by
  have h1 : ∀ l, (c.GetDNSRecordList domain).1 = .ok l → l ≠ [] := by
    intro l hl
    rw [getDNSRecordList_none c domain hn] at hl
    exact getListFallback_ok_ne_nil c domain l hl
  refine ⟨h1, ?_, ?_⟩
  · rw [getDNSRecord_none c domain hn]
    unfold Client.getFallback
    rcases hres : c.GetDNSRecordList domain with ⟨res, reqs⟩
    cases res with
    | error e => simp
    | ok l =>
      have hne := h1 l (by rw [hres])
      cases l with
      | nil => exact absurd rfl hne
      | cons r rest => simp
  · intro r rest hg
    rw [getDNSRecord_none c domain hn]
    unfold Client.getFallback
    rw [getDNSRecordList_eta c domain (r :: rest) hg]

/-- Witness for C9 on the concrete session-path client. -/
theorem getDNSRecord_fallback_safe_witness :
    ([{ Domain := "example.com", IP := "1.2.3.4" }] ≠ ([] : List DNSRecord)) ∧
    (egClientS.GetDNSRecord "example.com").1 ≠ GoResult.panicked ∧
    (egClientS.GetDNSRecord "example.com").1 =
      .ok { Domain := "example.com", IP := "1.2.3.4" } :=
  ⟨(getDNSRecord_fallback_safe egClientS "example.com" rfl).1
      [{ Domain := "example.com", IP := "1.2.3.4" }] rfl,
   (getDNSRecord_fallback_safe egClientS "example.com" rfl).2.1,
   (getDNSRecord_fallback_safe egClientS "example.com" rfl).2.2
      { Domain := "example.com", IP := "1.2.3.4" } [] rfl⟩

/-- Claim C10: with `tokenClient` nil and no record matching the lowercased
domain, `DeleteDNSRecord` returns the `NotFoundError` and issues no delete
request (every issued request is the `action=get` list request, which is
not a delete request). -/
theorem deleteDNSRecord_absent (c : Client) (domain : String) (list : DNSRecordList)
    (hn : c.tokenClient = none)
    (hl : (c.ListDNSRecords).1 = .ok list)
    (hm : list.filter (fun record => record.Domain == toLowerStr domain) = []) :
    (c.DeleteDNSRecord domain).1 = .error (.notFound (notFoundListMsg domain)) ∧
    (∀ fr ∈ (c.DeleteDNSRecord domain).2, fr = listReq) ∧
    (∀ r : DNSRecord, listReq ≠ deleteReq r) := by
  have hg : c.GetDNSRecordList domain =
      (.error (.notFound (notFoundListMsg domain)), (c.ListDNSRecords).2) := by
    rw [getDNSRecordList_none c domain hn, getListFallback_of_list c domain list hl]
    simp [hm]
  have hdel : c.DeleteDNSRecord domain =
      (.error (.notFound (notFoundListMsg domain)), (c.ListDNSRecords).2) := by
    rw [deleteDNSRecord_none c domain hn]
    unfold Client.deleteFallback
    rw [hg]
  refine ⟨by rw [hdel], ?_, ?_⟩
  · intro fr hfr
    rw [hdel] at hfr
    rw [listDNSRecords_none c hn] at hfr
    rcases listFallback_reqs c with h | h <;> rw [h] at hfr
    · simp at hfr
    · simpa using hfr
  · intro r
    simp [listReq, deleteReq]

/-- Witness for C10: deleting an absent domain on the concrete client. -/
theorem deleteDNSRecord_absent_witness :
    (egClientS.DeleteDNSRecord "nosuch.com").1 =
      .error (.notFound (notFoundListMsg "nosuch.com")) ∧
    (∀ fr ∈ (egClientS.DeleteDNSRecord "nosuch.com").2, fr = listReq) ∧
    (∀ r : DNSRecord, listReq ≠ deleteReq r) :=
  deleteDNSRecord_absent egClientS "nosuch.com"
    [{ Domain := "example.com", IP := "1.2.3.4" }, { Domain := "other.com", IP := "5.6.7.8" }]
    rfl rfl (by decide)

/-- A session-path client whose IDs stress multi-underscore handling: three
records for domain `a_b_c`, with IPs `b`, `b_c`, `b`. -/
def c3Client : Client :=
  { tokenClient := none
    buildReq := fun _ => .ok ()
    listDo := fun _ => .ok { Data := [["a_b_c", "b"], ["a_b_c", "b_c"], ["a_b_c", "b"]] }
    createDo := fun _ => .ok { Success := true, Message := "" }
    deleteDo := fun _ => .ok () }

/-- Resource state for the multi-underscore ID `a_b_c`. -/
def c3Data : ResourceData := { id := "a_b_c", domain := "", ip := "" }

/-- Counterexample to C3: with ID `a_b_c`, the code compares record IPs to
`strings.Split(id, "_")[1] = "b"` and selects the record with IP `"b"`,
whereas the claim (matching against the substring after the first
underscore, `"b_c"`) would select the record with IP `"b_c"`. -/
theorem read_id_claim_counterexample :
    resourceDNSRecordRead c3Client c3Data =
      .done { id := "a_b_c", domain := "a_b_c", ip := "b" } ∧
    afterFirstUnderscore c3Data.id = "b_c" ∧
    readClaimPredicted c3Client c3Data =
      .done { id := "a_b_c", domain := "a_b_c", ip := "b_c" } ∧
    resourceDNSRecordRead c3Client c3Data ≠ readClaimPredicted c3Client c3Data :=
  ⟨by decide, by decide, by decide, by decide⟩

/-- Claim C3 (amended): `resourceDNSRecordRead` passes the entire resource
ID string as the domain argument to `GetDNSRecordList`, and then selects
the last returned record whose IP equals element 1 of
`strings.Split(id, "_")` — the fragment between the first and second
underscore of the ID, which is the whole remainder only when the ID
contains exactly one underscore. -/
theorem read_passes_full_id_and_selects_split1 (c : Client) (d : ResourceData)
    (records : List DNSRecord) (part : String)
    (hr : (c.GetDNSRecordList d.id).1 = .ok records)
    (hne : records ≠ [])
    (hp : (splitUnderscore d.id)[1]? = some part) :
    resourceDNSRecordRead c d =
      match (records.filter (fun r => r.IP == part)).getLast? with
      | none => .done { d with id := "" }
      | some record => .done { d with domain := record.Domain, ip := record.IP } := by
  unfold resourceDNSRecordRead
  rw [hr]
  cases records with
  | nil => exact absurd rfl hne
  | cons r rest =>
    dsimp only
    rw [hp]

/-- Witness for the amended C3 at the multi-underscore client. -/
theorem read_passes_full_id_and_selects_split1_witness :
    resourceDNSRecordRead c3Client c3Data =
      .done { id := "a_b_c", domain := "a_b_c", ip := "b" } :=
  read_passes_full_id_and_selects_split1 c3Client c3Data
    [{ Domain := "a_b_c", IP := "b" }, { Domain := "a_b_c", IP := "b_c" },
      { Domain := "a_b_c", IP := "b" }]
    "b" rfl (by decide) rfl

end PiholeProvider
